import Mathlib

/-
  Verification development for the Bolsa Atleta dashboard (src/app_streamlit.py).

  The embedding models the two pieces of logic the claims are about:
  1. the query-builder `build_where_clause`, which turns the sidebar filter
     state into a SQL WHERE fragment by string interpolation, and
  2. the connection guardian `get_valid_connection` / `fetch_query`, which
     caches a single sqlite handle, probes it before use, and retries a query
     once after a connection-lost error.

  Python strings are modelled as lists of characters; the SQLite store and the
  pandas/sqlite error behaviour are modelled as an explicit environment with
  handles named by natural numbers, and every state change is recorded in an
  event trace so that "exactly once" properties are expressible.
-/

/-- Python strings are modelled as lists of characters. -/
abbrev Str := List Char

/-- Embeds a Lean string literal into the model. -/
def lit (x : String) : Str := x.toList

/-- The single-quote character used by the SQL interpolation in the source. -/
def quoteChar : Char := Char.ofNat 39

/-- Model of Python `sep.join(xs)`. -/
def joinSep (sep : Str) : List Str → Str
  | [] => []
  | [x] => x
  | x :: y :: t => x ++ sep ++ joinSep sep (y :: t)

/-- The separator interpolated between IN-list members: a quote, a comma, a
space and a quote (the Python source joins with that four-character string). -/
def sepStr : Str := [quoteChar, ',', ' ', quoteChar]

/-- Sidebar filter state feeding `build_where_clause` (the module-level
variables `filtro_categoria`, ..., `use_value_filter` of the source). Dates
are carried as their rendered ISO text, money values as rationals. -/
structure FilterState where
  filtro_categoria : List Str
  filtro_modalidade : List Str
  filtro_estado : List Str
  use_date_filter : Bool
  filtro_data_inicio : Option Str
  filtro_data_fim : Option Str
  use_value_filter : Bool
  filtro_valor_min : ℚ
  filtro_valor_max : ℚ

/-- Text preceding the member list of an interpolated IN condition:
`field ++ " IN ('"`. -/
def inPre (field : Str) : Str := field ++ (lit " IN (" ++ [quoteChar])

/-- Text following the member list of an interpolated IN condition: `"')"`. -/
def inSuf : Str := [quoteChar] ++ lit ")"

/-- Model of the interpolated membership condition
`f"field IN ('{vals joined by quote-comma-space-quote}')"`. -/
def inCond (field : Str) (vals : List Str) : Str :=
  inPre field ++ (joinSep sepStr vals ++ inSuf)

/-- Decimal rendering of the numeric bound interpolated into a value
condition (the model renders rationals canonically; no claim inspects the
numeral text). -/
def renderNum (q : ℚ) : Str :=
  (if q.num < 0 then ['-'] else []) ++ Nat.toDigits 10 q.num.natAbs ++
    (if q.den = 1 then [] else ['/'] ++ Nat.toDigits 10 q.den)

/-- The lower date bound condition `f"p.data_pagamento >= '{d}'"`. -/
def dateGeCond (d : Str) : Str :=
  lit "p.data_pagamento >= " ++ ([quoteChar] ++ d ++ [quoteChar])

/-- The upper date bound condition `f"p.data_pagamento <= '{d}'"`. -/
def dateLeCond (d : Str) : Str :=
  lit "p.data_pagamento <= " ++ ([quoteChar] ++ d ++ [quoteChar])

/-- The lower value bound condition `f"p.valor_pago >= {v}"`. -/
def valGeCond (v : ℚ) : Str := lit "p.valor_pago >= " ++ renderNum v

/-- The upper value bound condition `f"p.valor_pago <= {v}"`. -/
def valLeCond (v : ℚ) : Str := lit "p.valor_pago <= " ++ renderNum v

/-- Direct translation of the body of `build_where_clause`: the `conditions`
list after all appends. Python truthiness of a list is nonemptiness, of an
optional date is `Option.isSome`, and the numeric guards are `> 0`. -/
def build_conditions (fs : FilterState) : List Str :=
  (if fs.filtro_categoria ≠ [] then
      [inCond (lit "c.categoria") fs.filtro_categoria] else [])
  ++ (if fs.filtro_modalidade ≠ [] then
      [inCond (lit "m.modalidade") fs.filtro_modalidade] else [])
  ++ (if fs.filtro_estado ≠ [] then
      [inCond (lit "mu.uf") fs.filtro_estado] else [])
  ++ (if fs.use_date_filter then
        (match fs.filtro_data_inicio with
          | some d => [dateGeCond d]
          | none => [])
        ++ (match fs.filtro_data_fim with
          | some d => [dateLeCond d]
          | none => [])
      else [])
  ++ (if fs.use_value_filter then
        (if 0 < fs.filtro_valor_min then [valGeCond fs.filtro_valor_min] else [])
        ++ (if 0 < fs.filtro_valor_max then [valLeCond fs.filtro_valor_max] else [])
      else [])

/-- Translation of the return of `build_where_clause`:
`" AND ".join(conditions) if conditions else None`. -/
def build_where_clause (fs : FilterState) : Option Str :=
  if build_conditions fs = [] then none
  else some (joinSep (lit " AND ") (build_conditions fs))

/-- Statement-side vocabulary: the category contribution as described by the
spec table (a membership condition exactly when the selected set is
non-empty). -/
def catOpt (fs : FilterState) : Option Str :=
  if fs.filtro_categoria = [] then none
  else some (inCond (lit "c.categoria") fs.filtro_categoria)

/-- The modality contribution as described by the spec table. -/
def modOpt (fs : FilterState) : Option Str :=
  if fs.filtro_modalidade = [] then none
  else some (inCond (lit "m.modalidade") fs.filtro_modalidade)

/-- The state-code contribution as described by the spec table. -/
def ufOpt (fs : FilterState) : Option Str :=
  if fs.filtro_estado = [] then none
  else some (inCond (lit "mu.uf") fs.filtro_estado)

/-- The lower date bound contribution: present exactly when the date toggle is
on and a start date is stored. -/
def dateLoOpt (fs : FilterState) : Option Str :=
  if fs.use_date_filter then fs.filtro_data_inicio.map dateGeCond else none

/-- The upper date bound contribution: present exactly when the date toggle is
on and an end date is stored. -/
def dateHiOpt (fs : FilterState) : Option Str :=
  if fs.use_date_filter then fs.filtro_data_fim.map dateLeCond else none

/-- The lower value bound contribution: present exactly when the value toggle
is on and the minimum is positive (0 is the sentinel for unset). -/
def valLoOpt (fs : FilterState) : Option Str :=
  if fs.use_value_filter then
    (if 0 < fs.filtro_valor_min then some (valGeCond fs.filtro_valor_min) else none)
  else none

/-- The upper value bound contribution: present exactly when the value toggle
is on and the maximum is positive (0 is the sentinel for unset). -/
def valHiOpt (fs : FilterState) : Option Str :=
  if fs.use_value_filter then
    (if 0 < fs.filtro_valor_max then some (valLeCond fs.filtro_valor_max) else none)
  else none

/-- The conditions list decomposes into the seven independent per-field
contributions, in the emission order of the source. -/
lemma build_conditions_decomp (fs : FilterState) :
    build_conditions fs =
      (catOpt fs).toList ++ (modOpt fs).toList ++ (ufOpt fs).toList ++
      (dateLoOpt fs).toList ++ (dateHiOpt fs).toList ++
      (valLoOpt fs).toList ++ (valHiOpt fs).toList := by
  have hc : (if fs.filtro_categoria ≠ [] then
      [inCond (lit "c.categoria") fs.filtro_categoria] else []) = (catOpt fs).toList := by
    by_cases h : fs.filtro_categoria = [] <;> simp [catOpt, h]
  have hm : (if fs.filtro_modalidade ≠ [] then
      [inCond (lit "m.modalidade") fs.filtro_modalidade] else []) = (modOpt fs).toList := by
    by_cases h : fs.filtro_modalidade = [] <;> simp [modOpt, h]
  have hu : (if fs.filtro_estado ≠ [] then
      [inCond (lit "mu.uf") fs.filtro_estado] else []) = (ufOpt fs).toList := by
    by_cases h : fs.filtro_estado = [] <;> simp [ufOpt, h]
  have hd : (if fs.use_date_filter then
        (match fs.filtro_data_inicio with
          | some d => [dateGeCond d]
          | none => [])
        ++ (match fs.filtro_data_fim with
          | some d => [dateLeCond d]
          | none => [])
      else []) = (dateLoOpt fs).toList ++ (dateHiOpt fs).toList := by
    by_cases h : fs.use_date_filter <;>
      cases hi : fs.filtro_data_inicio <;> cases hf : fs.filtro_data_fim <;>
        simp [dateLoOpt, dateHiOpt, h, hi, hf]
  have hv : (if fs.use_value_filter then
        (if 0 < fs.filtro_valor_min then [valGeCond fs.filtro_valor_min] else [])
        ++ (if 0 < fs.filtro_valor_max then [valLeCond fs.filtro_valor_max] else [])
      else []) = (valLoOpt fs).toList ++ (valHiOpt fs).toList := by
    by_cases h : fs.use_value_filter <;>
      by_cases h1 : 0 < fs.filtro_valor_min <;>
        by_cases h2 : 0 < fs.filtro_valor_max <;>
          simp [valLoOpt, valHiOpt, h, h1, h2]
  calc build_conditions fs
      = (if fs.filtro_categoria ≠ [] then
          [inCond (lit "c.categoria") fs.filtro_categoria] else [])
        ++ (if fs.filtro_modalidade ≠ [] then
          [inCond (lit "m.modalidade") fs.filtro_modalidade] else [])
        ++ (if fs.filtro_estado ≠ [] then
          [inCond (lit "mu.uf") fs.filtro_estado] else [])
        ++ (if fs.use_date_filter then
              (match fs.filtro_data_inicio with
                | some d => [dateGeCond d]
                | none => [])
              ++ (match fs.filtro_data_fim with
                | some d => [dateLeCond d]
                | none => [])
            else [])
        ++ (if fs.use_value_filter then
              (if 0 < fs.filtro_valor_min then [valGeCond fs.filtro_valor_min] else [])
              ++ (if 0 < fs.filtro_valor_max then [valLeCond fs.filtro_valor_max] else [])
            else []) := rfl
    _ = _ := by rw [hc, hm, hu, hd, hv]; simp [List.append_assoc]

/-- C4: with the category, modality and state sets all empty and the date and
value toggles both off, `build_where_clause` produces no predicate at all. -/
theorem build_where_clause_empty_none (fs : FilterState)
    (hcat : fs.filtro_categoria = []) (hmod : fs.filtro_modalidade = [])
    (hest : fs.filtro_estado = []) (hdate : fs.use_date_filter = false)
    (hval : fs.use_value_filter = false) :
    build_where_clause fs = none := by
  have h : build_conditions fs = [] := by
    rw [build_conditions_decomp]
    simp [catOpt, modOpt, ufOpt, dateLoOpt, dateHiOpt, valLoOpt, valHiOpt,
      hcat, hmod, hest, hdate, hval]
  simp [build_where_clause, h]

/-- An all-empty filter state used as concrete input for witnesses. -/
def emptyFS : FilterState :=
  { filtro_categoria := [], filtro_modalidade := [], filtro_estado := [],
    use_date_filter := false, filtro_data_inicio := none, filtro_data_fim := none,
    use_value_filter := false, filtro_valor_min := 0, filtro_valor_max := 0 }

/-- Witness for C4 at the all-empty filter state. -/
theorem build_where_clause_empty_none_witness :
    emptyFS.filtro_categoria = [] ∧ emptyFS.use_date_filter = false ∧
      build_where_clause emptyFS = none :=
  ⟨rfl, rfl, build_where_clause_empty_none emptyFS rfl rfl rfl rfl rfl⟩

/-- filterMap over the identity concatenates the optional values in order. -/
lemma filterMap_id_cons (o : Option Str) (t : List (Option Str)) :
    List.filterMap id (o :: t) = o.toList ++ List.filterMap id t := by
  cases o <;> simp

/-- C5: the predicate produced by `build_where_clause` is the AND-conjunction
of exactly the independent conditions contributed by each enabled field and
no other conditions: a membership test per non-empty category, modality and
state set, the date bounds when the date toggle is on, and the value bounds
when the value toggle is on. -/
theorem build_where_clause_conjunction (fs : FilterState) :
    (build_where_clause fs = none ↔ build_conditions fs = []) ∧
    build_conditions fs =
      (catOpt fs).toList ++ (modOpt fs).toList ++ (ufOpt fs).toList ++
      (dateLoOpt fs).toList ++ (dateHiOpt fs).toList ++
      (valLoOpt fs).toList ++ (valHiOpt fs).toList ∧
    (∀ w, build_where_clause fs = some w →
      w = joinSep (lit " AND ") (build_conditions fs)) := by
  refine ⟨?_, build_conditions_decomp fs, ?_⟩
  · by_cases h : build_conditions fs = [] <;> simp [build_where_clause, h]
  · intro w hw
    by_cases h : build_conditions fs = []
    · simp [build_where_clause, h] at hw
    · simp only [build_where_clause, if_neg h, Option.some.injEq] at hw
      exact hw.symm

/-- A filter state selecting only the given categories. -/
def catOnly (vals : List Str) : FilterState :=
  { filtro_categoria := vals, filtro_modalidade := [], filtro_estado := [],
    use_date_filter := false, filtro_data_inicio := none, filtro_data_fim := none,
    use_value_filter := false, filtro_valor_min := 0, filtro_valor_max := 0 }

/-- A filter state selecting only the given modalities. -/
def modOnly (vals : List Str) : FilterState :=
  { filtro_categoria := [], filtro_modalidade := vals, filtro_estado := [],
    use_date_filter := false, filtro_data_inicio := none, filtro_data_fim := none,
    use_value_filter := false, filtro_valor_min := 0, filtro_valor_max := 0 }

/-- A filter state selecting only the given state codes. -/
def ufOnly (vals : List Str) : FilterState :=
  { filtro_categoria := [], filtro_modalidade := [], filtro_estado := vals,
    use_date_filter := false, filtro_data_inicio := none, filtro_data_fim := none,
    use_value_filter := false, filtro_valor_min := 0, filtro_valor_max := 0 }

/-- Witness for C5 at a one-category filter state. -/
theorem build_where_clause_conjunction_witness :
    build_where_clause (catOnly [lit "x"]) =
      some (inCond (lit "c.categoria") [lit "x"]) ∧
    inCond (lit "c.categoria") [lit "x"] =
      joinSep (lit " AND ") (build_conditions (catOnly [lit "x"])) :=
  ⟨by decide,
   (build_where_clause_conjunction (catOnly [lit "x"])).2.2
     (inCond (lit "c.categoria") [lit "x"]) (by decide)⟩

/-- C10: `build_where_clause` is a deterministic function of the filter state
and emits the enabled conditions in one fixed order: categories, modalities,
states, date lower bound, date upper bound, value lower bound, value upper
bound. -/
theorem build_order_det :
    (∀ fs, build_conditions fs =
      List.filterMap id
        [catOpt fs, modOpt fs, ufOpt fs, dateLoOpt fs, dateHiOpt fs,
         valLoOpt fs, valHiOpt fs]) ∧
    (∀ fs₁ fs₂, fs₁ = fs₂ → build_where_clause fs₁ = build_where_clause fs₂) := by
  constructor
  · intro fs
    rw [build_conditions_decomp]
    simp only [filterMap_id_cons, List.filterMap_nil, List.append_nil,
      List.append_assoc]
  · intro fs₁ fs₂ h
    rw [h]

/-- Witness for C10 at the all-empty filter state. -/
theorem build_order_det_witness :
    build_conditions emptyFS =
      List.filterMap id
        [catOpt emptyFS, modOpt emptyFS, ufOpt emptyFS, dateLoOpt emptyFS,
         dateHiOpt emptyFS, valLoOpt emptyFS, valHiOpt emptyFS] ∧
    build_where_clause emptyFS = build_where_clause emptyFS :=
  ⟨build_order_det.1 emptyFS, build_order_det.2 emptyFS emptyFS rfl⟩

/-- C6: with the date toggle on and only a start bound stored, the builder
contributes exactly the lower-bound condition and no upper bound; with the
toggle off, no date bound appears regardless of the stored values. -/
theorem date_toggle_bounds (fs : FilterState) (d : Str) :
    (fs.use_date_filter = true → fs.filtro_data_inicio = some d →
      fs.filtro_data_fim = none →
      build_conditions fs =
        (catOpt fs).toList ++ (modOpt fs).toList ++ (ufOpt fs).toList ++
        [dateGeCond d] ++ (valLoOpt fs).toList ++ (valHiOpt fs).toList) ∧
    (fs.use_date_filter = false →
      build_conditions fs =
        (catOpt fs).toList ++ (modOpt fs).toList ++ (ufOpt fs).toList ++
        (valLoOpt fs).toList ++ (valHiOpt fs).toList) := by
  constructor
  · intro h hi hf
    rw [build_conditions_decomp]
    simp [dateLoOpt, dateHiOpt, h, hi, hf, List.append_assoc]
  · intro h
    rw [build_conditions_decomp]
    simp [dateLoOpt, dateHiOpt, h]

/-- A date-toggle-on filter state with only a start date, for the C6
witness. -/
def startOnlyFS : FilterState :=
  { emptyFS with use_date_filter := true,
                 filtro_data_inicio := some (lit "2020-01-01") }

/-- A date-toggle-off filter state that still stores both dates, for the C6
witness. -/
def storedDatesFS : FilterState :=
  { emptyFS with filtro_data_inicio := some (lit "2020-01-01"),
                 filtro_data_fim := some (lit "2021-12-31") }

/-- Witness for C6: start-only contributes exactly the lower bound; toggle
off removes both bounds even with stored dates. -/
theorem date_toggle_bounds_witness :
    startOnlyFS.use_date_filter = true ∧
    startOnlyFS.filtro_data_inicio = some (lit "2020-01-01") ∧
    startOnlyFS.filtro_data_fim = none ∧
    build_conditions startOnlyFS =
      (catOpt startOnlyFS).toList ++ (modOpt startOnlyFS).toList ++
      (ufOpt startOnlyFS).toList ++ [dateGeCond (lit "2020-01-01")] ++
      (valLoOpt startOnlyFS).toList ++ (valHiOpt startOnlyFS).toList ∧
    storedDatesFS.use_date_filter = false ∧
    build_conditions storedDatesFS =
      (catOpt storedDatesFS).toList ++ (modOpt storedDatesFS).toList ++
      (ufOpt storedDatesFS).toList ++ (valLoOpt storedDatesFS).toList ++
      (valHiOpt storedDatesFS).toList :=
  ⟨rfl, rfl, rfl,
   (date_toggle_bounds startOnlyFS (lit "2020-01-01")).1 rfl rfl rfl,
   rfl,
   (date_toggle_bounds storedDatesFS (lit "2020-01-01")).2 rfl⟩

/-- C7: with the value toggle on, a minimum of 0 contributes no lower-bound
clause and a maximum of 0 contributes no upper-bound clause, each bound
acting as an independent unset sentinel. -/
theorem value_sentinel_zero (fs : FilterState) :
    (fs.use_value_filter = true → fs.filtro_valor_min = 0 →
      build_conditions fs =
        (catOpt fs).toList ++ (modOpt fs).toList ++ (ufOpt fs).toList ++
        (dateLoOpt fs).toList ++ (dateHiOpt fs).toList ++
        (if 0 < fs.filtro_valor_max then [valLeCond fs.filtro_valor_max] else [])) ∧
    (fs.use_value_filter = true → fs.filtro_valor_max = 0 →
      build_conditions fs =
        (catOpt fs).toList ++ (modOpt fs).toList ++ (ufOpt fs).toList ++
        (dateLoOpt fs).toList ++ (dateHiOpt fs).toList ++
        (if 0 < fs.filtro_valor_min then [valGeCond fs.filtro_valor_min] else [])) := by
  constructor
  · intro h hmin
    rw [build_conditions_decomp]
    by_cases hmax : 0 < fs.filtro_valor_max <;>
      simp [valLoOpt, valHiOpt, h, hmin, hmax, List.append_assoc]
  · intro h hmax
    rw [build_conditions_decomp]
    by_cases hmin : 0 < fs.filtro_valor_min <;>
      simp [valLoOpt, valHiOpt, h, hmin, hmax, List.append_assoc]

/-- A value-toggle-on filter state with both bounds at the 0 sentinel, for
the C7 witness. -/
def valueOnFS : FilterState := { emptyFS with use_value_filter := true }

/-- Witness for C7 with both bounds at the 0 sentinel. -/
theorem value_sentinel_zero_witness :
    valueOnFS.use_value_filter = true ∧
    valueOnFS.filtro_valor_min = 0 ∧ valueOnFS.filtro_valor_max = 0 ∧
    build_conditions valueOnFS =
      (catOpt valueOnFS).toList ++ (modOpt valueOnFS).toList ++
      (ufOpt valueOnFS).toList ++ (dateLoOpt valueOnFS).toList ++
      (dateHiOpt valueOnFS).toList ++
      (if 0 < valueOnFS.filtro_valor_max then [valLeCond valueOnFS.filtro_valor_max] else []) :=
  ⟨rfl, rfl, rfl, (value_sentinel_zero valueOnFS).1 rfl rfl⟩

/-- A payment row as seen by the per-payment predicate: the joined columns
that the generated conditions mention. -/
structure Row where
  categoria : Str
  modalidade : Str
  uf : Str
  data_pagamento : Str
  valor_pago : ℚ

/-- Removes an expected leading text from a string, or fails. -/
def stripPre (p s : Str) : Option Str :=
  if p.isPrefixOf s then some (s.drop p.length) else none

/-- Removes an expected trailing text from a string, or fails. -/
def stripSuf (p s : Str) : Option Str :=
  if p.isSuffixOf s then some (s.take (s.length - p.length)) else none

/-- Fuelled leftmost split on a separator (the fuel is only a structural
termination device; `splitSep` supplies enough fuel for the whole string). -/
def splitSepF (sep : Str) : Nat → Str → List Str
  | _, [] => [[]]
  | 0, s => [s]
  | fuel + 1, c :: cs =>
    if sep.isPrefixOf (c :: cs) ∧ sep ≠ [] then
      [] :: splitSepF sep fuel ((c :: cs).drop sep.length)
    else
      match splitSepF sep fuel cs with
      | [] => [[c]]
      | t :: ts => (c :: t) :: ts

/-- Leftmost split of a string on a separator. -/
def splitSep (sep s : Str) : List Str := splitSepF sep s.length s

/-- The result of `splitSepF` does not depend on the fuel once the fuel
covers the string length. -/
lemma splitSepF_fuel_irrel (sep : Str) :
    ∀ (n : Nat) (s : Str) (f g : Nat), s.length ≤ n → s.length ≤ f →
      s.length ≤ g → splitSepF sep f s = splitSepF sep g s := by
  intro n
  induction n with
  | zero =>
    intro s f g hn _ _
    have hs : s = [] := List.length_eq_zero.mp (Nat.le_zero.mp hn)
    subst hs
    cases f <;> cases g <;> rfl
  | succ n ih =>
    intro s f g hn hf hg
    cases s with
    | nil => cases f <;> cases g <;> rfl
    | cons c cs =>
      obtain ⟨f', rfl⟩ : ∃ f', f = f' + 1 := by
        cases f with
        | zero => exact absurd hf (by simp)
        | succ f' => exact ⟨f', rfl⟩
      obtain ⟨g', rfl⟩ : ∃ g', g = g' + 1 := by
        cases g with
        | zero => exact absurd hg (by simp)
        | succ g' => exact ⟨g', rfl⟩
      simp only [splitSepF]
      by_cases hcond : sep.isPrefixOf (c :: cs) ∧ sep ≠ []
      · rw [if_pos hcond, if_pos hcond]
        have hlen : ((c :: cs).drop sep.length).length ≤ cs.length := by
          have h1 : 1 ≤ sep.length :=
            Nat.succ_le_of_lt (List.length_pos.mpr hcond.2)
          simp only [List.length_drop, List.length_cons]
          omega
        have hcs : cs.length ≤ n := Nat.le_of_succ_le_succ hn
        rw [ih ((c :: cs).drop sep.length) f' g' (le_trans hlen hcs)
          (le_trans hlen (Nat.le_of_succ_le_succ hf))
          (le_trans hlen (Nat.le_of_succ_le_succ hg))]
      · rw [if_neg hcond, if_neg hcond]
        rw [ih cs f' g' (Nat.le_of_succ_le_succ hn)
          (Nat.le_of_succ_le_succ hf) (Nat.le_of_succ_le_succ hg)]

/-- A list is a boolean prefix of itself followed by anything. -/
lemma isPrefixOf_append_self (l t : Str) : l.isPrefixOf (l ++ t) = true := by
  induction l with
  | nil => cases t <;> rfl
  | cons a as ih => simp [List.isPrefixOf, ih]

/-- Splitting a string that avoids the quote character on a quote-headed
separator returns the string whole. -/
lemma splitSepF_no_sep (sep' : Str) :
    ∀ (v : Str), quoteChar ∉ v → ∀ fuel, v.length ≤ fuel →
      splitSepF (quoteChar :: sep') fuel v = [v] := by
  intro v
  induction v with
  | nil => intro _ fuel _; cases fuel <;> rfl
  | cons c cs ih =>
    intro hq fuel hf
    cases fuel with
    | zero => exact absurd hf (by simp)
    | succ f =>
      have hne : (quoteChar == c) = false := by
        refine beq_eq_false_iff_ne.mpr fun h => hq ?_
        rw [h]
        exact List.mem_cons_self c cs
      have hcond : ¬ ((quoteChar :: sep').isPrefixOf (c :: cs) ∧
          (quoteChar :: sep') ≠ []) := by
        rintro ⟨h1, -⟩
        simp [List.isPrefixOf, hne] at h1
      simp only [splitSepF, if_neg hcond]
      rw [ih (fun h => hq (List.mem_cons_of_mem _ h)) f (Nat.le_of_succ_le_succ hf)]

/-- Splitting a string of the form `v ++ sep ++ t` with a quote-free `v` on a
quote-headed separator peels off exactly `v`. -/
lemma splitSepF_planted (sep' : Str) :
    ∀ (v : Str), quoteChar ∉ v → ∀ (t : Str) (fuel : Nat),
      (v ++ (quoteChar :: sep') ++ t).length ≤ fuel →
      splitSepF (quoteChar :: sep') fuel (v ++ (quoteChar :: sep') ++ t) =
        v :: splitSep (quoteChar :: sep') t := by
  intro v
  induction v with
  | nil =>
    intro _ t fuel hf
    simp only [List.nil_append] at hf ⊢
    obtain ⟨f, rfl⟩ : ∃ f, fuel = f + 1 := by
      cases fuel with
      | zero => exact absurd hf (by simp)
      | succ f => exact ⟨f, rfl⟩
    have hcons : (quoteChar :: sep') ++ t = quoteChar :: (sep' ++ t) := rfl
    rw [hcons]
    have hcond : (quoteChar :: sep').isPrefixOf (quoteChar :: (sep' ++ t)) ∧
        (quoteChar :: sep') ≠ [] := by
      refine ⟨?_, by simp⟩
    
      rw [← hcons]
      exact isPrefixOf_append_self _ _
    simp only [splitSepF, if_pos hcond]
    rw [← hcons, List.drop_left]
    have hft : t.length ≤ f := by
      have := hf
      simp only [hcons, List.length_cons, List.length_append] at this
      omega
    rw [splitSepF_fuel_irrel (quoteChar :: sep') f t f t.length hft hft le_rfl]
    rfl
  | cons c v' ih =>
    intro hq t fuel hf
    have hcons : (c :: v') ++ (quoteChar :: sep') ++ t =
        c :: (v' ++ (quoteChar :: sep') ++ t) := rfl
    rw [hcons] at hf ⊢
    obtain ⟨f, rfl⟩ : ∃ f, fuel = f + 1 := by
      cases fuel with
      | zero => exact absurd hf (by simp)
      | succ f => exact ⟨f, rfl⟩
    have hne : (quoteChar == c) = false := by
      refine beq_eq_false_iff_ne.mpr fun h => hq ?_
      rw [h]
      exact List.mem_cons_self c v'
    have hcond : ¬ ((quoteChar :: sep').isPrefixOf
        (c :: (v' ++ (quoteChar :: sep') ++ t)) ∧ (quoteChar :: sep') ≠ []) := by
      rintro ⟨h1, -⟩
      simp [List.isPrefixOf, hne] at h1
    simp only [splitSepF, if_neg hcond]
    rw [ih (fun h => hq (List.mem_cons_of_mem _ h)) t f
      (Nat.le_of_succ_le_succ hf)]

/-- Splitting the join of a non-empty list of quote-free strings on the
interpolation separator recovers the list. -/
lemma splitSep_joinSep (vals : List Str) (hne : vals ≠ [])
    (hq : ∀ v ∈ vals, quoteChar ∉ v) :
    splitSep sepStr (joinSep sepStr vals) = vals := by
  induction vals with
  | nil => exact absurd rfl hne
  | cons v rest ih =>
    cases rest with
    | nil =>
      have hv : quoteChar ∉ v := hq v (List.mem_cons_self v [])
      exact splitSepF_no_sep [',', ' ', quoteChar] v hv v.length le_rfl
    | cons v₂ vs =>
      have hv : quoteChar ∉ v := hq v (List.mem_cons_self _ _)
      have hrest := ih (by simp) (fun x hx => hq x (List.mem_cons_of_mem _ hx))
      exact (splitSepF_planted [',', ' ', quoteChar] v hv
        (joinSep sepStr (v₂ :: vs)) _ le_rfl).trans (congrArg (v :: ·) hrest)

/-- Model of how the SQL engine reads an interpolated IN condition back from
its text: strip the fixed head and tail and lex the quoted literal list. The
engine sees only the final text, so two different member lists rendering to
the same text are indistinguishable here. -/
def parseInClause (field s : Str) : Option (List Str) :=
  match stripPre (inPre field) s with
  | none => none
  | some t =>
    match stripSuf inSuf t with
    | none => none
    | some body => some (splitSep sepStr body)

/-- Engine-side evaluation of one generated membership condition on a row:
the column named in the condition must be among the lexed literals. Returns
`none` on text that is not one of the membership shapes the builder emits. -/
def sqlEvalCond (r : Row) (c : Str) : Option Bool :=
  match parseInClause (lit "c.categoria") c with
  | some vs => some (decide (r.categoria ∈ vs))
  | none =>
    match parseInClause (lit "m.modalidade") c with
    | some vs => some (decide (r.modalidade ∈ vs))
    | none =>
      match parseInClause (lit "mu.uf") c with
      | some vs => some (decide (r.uf ∈ vs))
      | none => none

/-- Whether a row satisfies the produced predicate: no predicate matches
everything; a membership predicate is evaluated by the engine model, with
unparsable text matching nothing. -/
def matchesWhere (r : Row) (w : Option Str) : Bool :=
  match w with
  | none => true
  | some c => (sqlEvalCond r c).getD false

/-- Stripping an expected leading text from that text followed by anything
returns the remainder. -/
lemma stripPre_append (p t : Str) : stripPre p (p ++ t) = some t := by
  simp [stripPre, isPrefixOf_append_self, List.drop_left]

/-- Stripping an expected trailing text from anything followed by that text
returns the front. -/
lemma stripSuf_append (p t : Str) : stripSuf p (t ++ p) = some t := by
  have hpre : p.reverse.isPrefixOf (t ++ p).reverse = true := by
    rw [List.reverse_append]
    exact isPrefixOf_append_self _ _
  simp [stripSuf, List.isSuffixOf, hpre, List.length_append, List.take_left]

/-- The engine recovers exactly the interpolated member list whenever the
members are quote-free. -/
lemma parseIn_round (field : Str) (vals : List Str) (hne : vals ≠ [])
    (hq : ∀ v ∈ vals, quoteChar ∉ v) :
    parseInClause field (inCond field vals) = some vals := by
  unfold parseInClause inCond
  simp [stripPre_append, stripSuf_append, splitSep_joinSep vals hne hq]

/-- A strip with mismatching first characters fails. -/
lemma stripPre_ne1 (a b : Char) (as bs : Str) (h : (a == b) = false) :
    stripPre (a :: as) (b :: bs) = none := by
  simp [stripPre, List.isPrefixOf, h]

/-- A strip with equal first and mismatching second characters fails. -/
lemma stripPre_ne2 (a a₂ b₂ : Char) (as bs : Str) (h : (a₂ == b₂) = false) :
    stripPre (a :: a₂ :: as) (a :: b₂ :: bs) = none := by
  simp [stripPre, List.isPrefixOf, h]

/-- The category parser rejects a modality condition (distinct field heads). -/
lemma parse_cat_on_mod (vals : List Str) :
    parseInClause (lit "c.categoria") (inCond (lit "m.modalidade") vals) = none := by
  unfold parseInClause
  have e1 : inPre (lit "c.categoria") =
      'c' :: (lit ".categoria" ++ (lit " IN (" ++ [quoteChar])) := rfl
  have e2 : inCond (lit "m.modalidade") vals =
      'm' :: ((lit ".modalidade" ++ (lit " IN (" ++ [quoteChar])) ++
        (joinSep sepStr vals ++ inSuf)) := rfl
  rw [e1, e2, stripPre_ne1 _ _ _ _ (by decide)]

/-- The category parser rejects a state condition (distinct field heads). -/
lemma parse_cat_on_uf (vals : List Str) :
    parseInClause (lit "c.categoria") (inCond (lit "mu.uf") vals) = none := by
  unfold parseInClause
  have e1 : inPre (lit "c.categoria") =
      'c' :: (lit ".categoria" ++ (lit " IN (" ++ [quoteChar])) := rfl
  have e2 : inCond (lit "mu.uf") vals =
      'm' :: ((lit "u.uf" ++ (lit " IN (" ++ [quoteChar])) ++
        (joinSep sepStr vals ++ inSuf)) := rfl
  rw [e1, e2, stripPre_ne1 _ _ _ _ (by decide)]

/-- The modality parser rejects a state condition (fields differ at the
second character). -/
lemma parse_mod_on_uf (vals : List Str) :
    parseInClause (lit "m.modalidade") (inCond (lit "mu.uf") vals) = none := by
  unfold parseInClause
  have e1 : inPre (lit "m.modalidade") =
      'm' :: '.' :: (lit "modalidade" ++ (lit " IN (" ++ [quoteChar])) := rfl
  have e2 : inCond (lit "mu.uf") vals =
      'm' :: 'u' :: ((lit ".uf" ++ (lit " IN (" ++ [quoteChar])) ++
        (joinSep sepStr vals ++ inSuf)) := rfl
  rw [e1, e2, stripPre_ne2 _ _ _ _ _ (by decide)]

/-- The produced predicate for a category-only filter state is the single
interpolated membership condition. -/
lemma build_catOnly (vals : List Str) (hne : vals ≠ []) :
    build_where_clause (catOnly vals) =
      some (inCond (lit "c.categoria") vals) := by
  have h : build_conditions (catOnly vals) =
      [inCond (lit "c.categoria") vals] := by
    simp [build_conditions, catOnly, hne]
  simp [build_where_clause, h, joinSep]

/-- The produced predicate for a modality-only filter state is the single
interpolated membership condition. -/
lemma build_modOnly (vals : List Str) (hne : vals ≠ []) :
    build_where_clause (modOnly vals) =
      some (inCond (lit "m.modalidade") vals) := by
  have h : build_conditions (modOnly vals) =
      [inCond (lit "m.modalidade") vals] := by
    simp [build_conditions, modOnly, hne]
  simp [build_where_clause, h, joinSep]

/-- The produced predicate for a state-only filter state is the single
interpolated membership condition. -/
lemma build_ufOnly (vals : List Str) (hne : vals ≠ []) :
    build_where_clause (ufOnly vals) = some (inCond (lit "mu.uf") vals) := by
  have h : build_conditions (ufOnly vals) = [inCond (lit "mu.uf") vals] := by
    simp [build_conditions, ufOnly, hne]
  simp [build_where_clause, h, joinSep]

/-- Category-only predicates are membership tests, for quote-free sets. -/
lemma matches_catOnly (vals : List Str) (r : Row) (hne : vals ≠ [])
    (hq : ∀ v ∈ vals, quoteChar ∉ v) :
    (matchesWhere r (build_where_clause (catOnly vals)) = true ↔
      r.categoria ∈ vals) := by
  rw [build_catOnly vals hne]
  simp [matchesWhere, sqlEvalCond, parseIn_round _ vals hne hq]

/-- Modality-only predicates are membership tests, for quote-free sets. -/
lemma matches_modOnly (vals : List Str) (r : Row) (hne : vals ≠ [])
    (hq : ∀ v ∈ vals, quoteChar ∉ v) :
    (matchesWhere r (build_where_clause (modOnly vals)) = true ↔
      r.modalidade ∈ vals) := by
  rw [build_modOnly vals hne]
  simp [matchesWhere, sqlEvalCond, parse_cat_on_mod,
    parseIn_round _ vals hne hq]

/-- State-only predicates are membership tests, for quote-free sets. -/
lemma matches_ufOnly (vals : List Str) (r : Row) (hne : vals ≠ [])
    (hq : ∀ v ∈ vals, quoteChar ∉ v) :
    (matchesWhere r (build_where_clause (ufOnly vals)) = true ↔
      r.uf ∈ vals) := by
  rw [build_ufOnly vals hne]
  simp [matchesWhere, sqlEvalCond, parse_cat_on_uf, parse_mod_on_uf,
    parseIn_round _ vals hne hq]

/-- A category name containing the quote character: the member list
`[cxVal]` renders to the same condition text as the two-member list
`["a", "b"]`, so the engine reads it as membership in a different set. -/
def cxVal : Str := ['a', quoteChar, ',', ' ', quoteChar, 'b']

/-- A row whose category is the plain name `a`. -/
def cxRow : Row :=
  { categoria := lit "a", modalidade := [], uf := [], data_pagamento := [],
    valor_pago := 0 }

/-- C8 counterexample: as stated, the membership claim is false. For the
one-element category set containing the quote-bearing name `cxVal`, the
produced predicate matches a row whose category is `a`, which is not in the
set: the interpolated text is read back as membership in a two-element
set. -/
theorem in_filter_membership_cx :
    ¬ (∀ (vals : List Str) (r : Row), vals ≠ [] →
        (matchesWhere r (build_where_clause (catOnly vals)) = true ↔
          r.categoria ∈ vals)) := by
  intro hall
  have hmem := (hall [cxVal] cxRow (by decide)).mp (by decide)
  have : cxRow.categoria ∉ ([cxVal] : List Str) := by decide
  exact this hmem

/-- C8 (amended): for every non-empty category, modality or state set whose
member names are free of the quote character, the produced predicate is a
membership test equivalent to the field being in the set, and appending a
further quote-free element never shrinks the matched rows. -/
theorem in_filter_membership_quote_free (vals : List Str) (w : Str) (r : Row)
    (hne : vals ≠ []) (hq : ∀ v ∈ vals, quoteChar ∉ v)
    (hw : quoteChar ∉ w) :
    (matchesWhere r (build_where_clause (catOnly vals)) = true ↔
      r.categoria ∈ vals) ∧
    (matchesWhere r (build_where_clause (catOnly vals)) = true →
      matchesWhere r (build_where_clause (catOnly (vals ++ [w]))) = true) ∧
    (matchesWhere r (build_where_clause (modOnly vals)) = true ↔
      r.modalidade ∈ vals) ∧
    (matchesWhere r (build_where_clause (modOnly vals)) = true →
      matchesWhere r (build_where_clause (modOnly (vals ++ [w]))) = true) ∧
    (matchesWhere r (build_where_clause (ufOnly vals)) = true ↔
      r.uf ∈ vals) ∧
    (matchesWhere r (build_where_clause (ufOnly vals)) = true →
      matchesWhere r (build_where_clause (ufOnly (vals ++ [w]))) = true) := by
  have hne2 : vals ++ [w] ≠ [] := by simp
  have hq2 : ∀ v ∈ vals ++ [w], quoteChar ∉ v := by
    intro v hv
    rcases List.mem_append.mp hv with h | h
    · exact hq v h
    · rw [List.mem_singleton.mp h]
      exact hw
  refine ⟨matches_catOnly vals r hne hq, ?_, matches_modOnly vals r hne hq,
    ?_, matches_ufOnly vals r hne hq, ?_⟩
  · intro hm
    exact (matches_catOnly _ r hne2 hq2).mpr
      (List.mem_append_left _ ((matches_catOnly vals r hne hq).mp hm))
  · intro hm
    exact (matches_modOnly _ r hne2 hq2).mpr
      (List.mem_append_left _ ((matches_modOnly vals r hne hq).mp hm))
  · intro hm
    exact (matches_ufOnly _ r hne2 hq2).mpr
      (List.mem_append_left _ ((matches_ufOnly vals r hne hq).mp hm))

/-- Witness for the amended C8 at the quote-free one-element set containing
`a`, appending `b`, on a row with category `a`. -/
theorem in_filter_membership_quote_free_witness :
    ([lit "a"] : List Str) ≠ [] ∧
    (∀ v ∈ ([lit "a"] : List Str), quoteChar ∉ v) ∧
    quoteChar ∉ lit "b" ∧
    ((matchesWhere cxRow (build_where_clause (catOnly [lit "a"])) = true ↔
       cxRow.categoria ∈ [lit "a"]) ∧
     (matchesWhere cxRow (build_where_clause (catOnly [lit "a"])) = true →
       matchesWhere cxRow (build_where_clause (catOnly ([lit "a"] ++ [lit "b"]))) = true) ∧
     (matchesWhere cxRow (build_where_clause (modOnly [lit "a"])) = true ↔
       cxRow.modalidade ∈ [lit "a"]) ∧
     (matchesWhere cxRow (build_where_clause (modOnly [lit "a"])) = true →
       matchesWhere cxRow (build_where_clause (modOnly ([lit "a"] ++ [lit "b"]))) = true) ∧
     (matchesWhere cxRow (build_where_clause (ufOnly [lit "a"])) = true ↔
       cxRow.uf ∈ [lit "a"]) ∧
     (matchesWhere cxRow (build_where_clause (ufOnly [lit "a"])) = true →
       matchesWhere cxRow (build_where_clause (ufOnly ([lit "a"] ++ [lit "b"]))) = true)) :=
  ⟨by decide, by decide, by decide,
   in_filter_membership_quote_free [lit "a"] (lit "b") cxRow
     (by decide) (by decide) (by decide)⟩

/-- The error classification visible to `fetch_query`: `connLost` stands for
the sqlite ProgrammingError / OperationalError / InterfaceError kinds named
in both except clauses of the source, `other` for every other exception
(e.g. the wrapped query error raised for malformed SQL). -/
inductive QErr where
  | connLost
  | other
deriving DecidableEq

/-- Result of executing a query on a handle: a result table (named by a
number) or a raised error. -/
inductive ExecResult where
  | ok (t : Nat)
  | err (e : QErr)
deriving DecidableEq

/-- The environment: everything decided outside the program. `dbExists` is
the presence of the `bolsa_atleta.db` file, `live h` whether the no-op probe
`SELECT 1` succeeds on handle `h`, `closeOk h` whether `close()` on `h`
succeeds (its failure is swallowed by the source), and `exec h q` the
outcome of `pd.read_sql_query` for query `q` on handle `h`. Handles are
numbered in order of creation. -/
structure Env where
  dbExists : Bool
  live : Nat → Bool
  closeOk : Nat → Bool
  exec : Nat → Nat → ExecResult

/-- The module state: the `_conn_cache` global plus the name of the next
handle `sqlite3.connect` would create. -/
structure ConnState where
  conn_cache : Option Nat
  nextId : Nat
deriving DecidableEq

/-- Observable actions, recorded in order: the liveness probe, a best-effort
`close()` (recording whether the swallowed close succeeded), opening a new
connection, the fatal `st.error`/`st.stop` path, and a query execution. -/
inductive Event where
  | probe (h : Nat) (ok : Bool)
  | closeAttempt (h : Nat) (ok : Bool)
  | openConn (h : Nat)
  | fatalError
  | execQuery (h : Nat) (q : Nat) (r : ExecResult)
deriving DecidableEq

/-- Outcome of `get_valid_connection`: a handle, or session termination via
`st.stop` after the missing-database error. -/
inductive GVC where
  | ok (h : Nat)
  | fatal
deriving DecidableEq

/-- Outcome of `fetch_query`: a DataFrame, a propagated exception, or
session termination from within `get_valid_connection`. -/
inductive FetchResult where
  | ok (t : Nat)
  | err (e : QErr)
  | fatal
deriving DecidableEq

/-- The tail of `get_valid_connection`: check that the database file exists
(fatal `st.error`/`st.stop` otherwise), then `sqlite3.connect` plus the
busy-timeout pragma, caching and returning the new handle. -/
def open_new_connection (env : Env) (st : ConnState) :
    GVC × ConnState × List Event :=
  if env.dbExists then
    (GVC.ok st.nextId, ⟨some st.nextId, st.nextId + 1⟩,
      [Event.openConn st.nextId])
  else
    (GVC.fatal, st, [Event.fatalError])

/-- Translation of `get_valid_connection`: if a cached handle exists, probe
it with `SELECT 1`; on success return it, on a connection-kind failure close
it best-effort (the close error is swallowed), clear the cache and fall
through to creating a fresh connection. -/
def get_valid_connection (env : Env) (st : ConnState) :
    GVC × ConnState × List Event :=
  match st.conn_cache with
  | some h =>
    if env.live h then
      (GVC.ok h, st, [Event.probe h true])
    else
      match open_new_connection env ⟨none, st.nextId⟩ with
      | (r, st₁, ev) =>
        (r, st₁,
          Event.probe h false :: Event.closeAttempt h (env.closeOk h) :: ev)
  | none => open_new_connection env st

/-- Translation of `fetch_query(query, conn=None)`: obtain a valid handle,
run the query; on a connection-kind error close the cached handle
best-effort, clear the cache, obtain a fresh handle and run the query once
more with no further handler, so any second error propagates. The `conn`
parameter is accepted and never used, as in the source. -/
def fetch_query (env : Env) (query : Nat) (conn : Option Nat)
    (st : ConnState) : FetchResult × ConnState × List Event :=
  match get_valid_connection env st with
  | (GVC.fatal, st₁, ev₁) => (FetchResult.fatal, st₁, ev₁)
  | (GVC.ok h, st₁, ev₁) =>
    match env.exec h query with
    | ExecResult.ok t =>
      (FetchResult.ok t, st₁, ev₁ ++ [Event.execQuery h query (ExecResult.ok t)])
    | ExecResult.err QErr.other =>
      (FetchResult.err QErr.other, st₁,
        ev₁ ++ [Event.execQuery h query (ExecResult.err QErr.other)])
    | ExecResult.err QErr.connLost =>
      let ev₂ := ev₁ ++ [Event.execQuery h query (ExecResult.err QErr.connLost)]
      let evClose :=
        match st₁.conn_cache with
        | some hc => [Event.closeAttempt hc (env.closeOk hc)]
        | none => []
      match get_valid_connection env ⟨none, st₁.nextId⟩ with
      | (GVC.fatal, st₃, ev₃) => (FetchResult.fatal, st₃, ev₂ ++ evClose ++ ev₃)
      | (GVC.ok h₂, st₃, ev₃) =>
        match env.exec h₂ query with
        | ExecResult.ok t =>
          (FetchResult.ok t, st₃,
            ev₂ ++ evClose ++ ev₃ ++ [Event.execQuery h₂ query (ExecResult.ok t)])
        | ExecResult.err e =>
          (FetchResult.err e, st₃,
            ev₂ ++ evClose ++ ev₃ ++ [Event.execQuery h₂ query (ExecResult.err e)])

/-- Recognises query-execution events in a trace. -/
def isExecEvent : Event → Bool
  | Event.execQuery _ _ _ => true
  | _ => false

/-- Recognises close attempts on a given handle in a trace. -/
def isCloseOf (h : Nat) : Event → Bool
  | Event.closeAttempt h₂ _ => h₂ == h
  | _ => false

/-- Case analysis of a successful `get_valid_connection`: the returned handle
is always the cached one afterwards, and the call either returned a live
cached handle unchanged, or opened a fresh handle named `st.nextId`
(possibly after probing and closing a dead cached handle). -/
lemma gvc_ok_shape (env : Env) (st : ConnState) (h : Nat) (st₁ : ConnState)
    (ev₁ : List Event)
    (hgvc : get_valid_connection env st = (GVC.ok h, st₁, ev₁)) :
    st₁.conn_cache = some h ∧
    ((st₁ = st ∧ st.conn_cache = some h ∧ ev₁ = [Event.probe h true]) ∨
     (h = st.nextId ∧ st₁ = ⟨some st.nextId, st.nextId + 1⟩ ∧
       env.dbExists = true ∧
       (ev₁ = [Event.openConn st.nextId] ∨
        ∃ h₀, st.conn_cache = some h₀ ∧ env.live h₀ = false ∧
          ev₁ = [Event.probe h₀ false,
                 Event.closeAttempt h₀ (env.closeOk h₀),
                 Event.openConn st.nextId]))) := by
  cases hc : st.conn_cache with
  | none =>
    cases hdb : env.dbExists with
    | false =>
      simp [get_valid_connection, open_new_connection, hc, hdb] at hgvc
    | true =>
      simp only [get_valid_connection, open_new_connection, hc, hdb,
        if_true, Prod.mk.injEq, GVC.ok.injEq] at hgvc
      obtain ⟨hh, hst, hev⟩ := hgvc
      subst hh
      refine ⟨by rw [← hst], Or.inr ⟨rfl, hst.symm, rfl, Or.inl hev.symm⟩⟩
  | some h₀ =>
    by_cases hl : env.live h₀
    · simp only [get_valid_connection, hc, hl, if_true, Prod.mk.injEq,
        GVC.ok.injEq] at hgvc
      obtain ⟨hh, hst, hev⟩ := hgvc
      subst hh
      refine ⟨by rw [← hst, hc], Or.inl ⟨hst.symm, rfl, hev.symm⟩⟩
    · cases hdb : env.dbExists with
      | false =>
        simp [get_valid_connection, open_new_connection, hc, hl, hdb] at hgvc
      | true =>
        simp only [get_valid_connection, open_new_connection, hc, hl,
          if_false, hdb, if_true, Prod.mk.injEq, GVC.ok.injEq,
          Bool.false_eq_true] at hgvc
        obtain ⟨hh, hst, hev⟩ := hgvc
        subst hh
        refine ⟨by rw [← hst], Or.inr ⟨rfl, hst.symm, rfl, Or.inr
          ⟨h₀, rfl, by simp [hl], hev.symm⟩⟩⟩

/-- C3: `get_valid_connection` returns the cached handle whenever the no-op
probe succeeds; on probe failure it closes the cached handle best-effort
(the recorded close outcome does not affect the returned value) and opens a
fresh one; and with no cached handle and no database file it terminates the
session fatally instead of returning a handle. -/
theorem get_valid_connection_spec (env : Env) (st : ConnState) (h : Nat) :
    (st.conn_cache = some h → env.live h = true →
      get_valid_connection env st = (GVC.ok h, st, [Event.probe h true])) ∧
    (st.conn_cache = some h → env.live h = false → env.dbExists = true →
      get_valid_connection env st =
        (GVC.ok st.nextId, ⟨some st.nextId, st.nextId + 1⟩,
         [Event.probe h false, Event.closeAttempt h (env.closeOk h),
          Event.openConn st.nextId])) ∧
    (st.conn_cache = none → env.dbExists = false →
      get_valid_connection env st = (GVC.fatal, st, [Event.fatalError])) := by
  refine ⟨?_, ?_, ?_⟩
  · intro hc hl
    simp [get_valid_connection, hc, hl]
  · intro hc hl hdb
    simp [get_valid_connection, open_new_connection, hc, hl, hdb]
  · intro hc hdb
    simp [get_valid_connection, open_new_connection, hc, hdb]

/-- Environment with an existing database and always-live handles. -/
def envLive : Env :=
  { dbExists := true, live := fun _ => true, closeOk := fun _ => true,
    exec := fun _ _ => ExecResult.ok 0 }

/-- Environment with an existing database whose handles all fail the probe. -/
def envDead : Env :=
  { dbExists := true, live := fun _ => false, closeOk := fun _ => true,
    exec := fun _ _ => ExecResult.ok 0 }

/-- Environment with the database file absent. -/
def envNoDb : Env :=
  { dbExists := false, live := fun _ => false, closeOk := fun _ => true,
    exec := fun _ _ => ExecResult.ok 0 }

/-- Initial module state: no cached handle yet. -/
def stEmpty : ConnState := ⟨none, 0⟩

/-- Module state caching handle 0. -/
def stWith0 : ConnState := ⟨some 0, 1⟩

/-- Witness for C3 on concrete environments: live cache returned as is; dead
cache probed, closed and replaced; missing database fatal. -/
theorem get_valid_connection_spec_witness :
    get_valid_connection envLive stWith0 =
      (GVC.ok 0, stWith0, [Event.probe 0 true]) ∧
    get_valid_connection envDead stWith0 =
      (GVC.ok 1, ⟨some 1, 2⟩,
       [Event.probe 0 false, Event.closeAttempt 0 true, Event.openConn 1]) ∧
    get_valid_connection envNoDb stEmpty =
      (GVC.fatal, stEmpty, [Event.fatalError]) :=
  ⟨(get_valid_connection_spec envLive stWith0 0).1 rfl rfl,
   (get_valid_connection_spec envDead stWith0 0).2.1 rfl rfl rfl,
   (get_valid_connection_spec envNoDb stEmpty 0).2.2 rfl rfl⟩

/-- C9: the `conn` argument of `fetch_query` has no effect whatsoever: for
any two supplied connection values the result, the state and the whole event
trace coincide, because the body only ever uses the process-wide cache. -/
theorem fetch_query_conn_noninterference (env : Env) (q : Nat)
    (c₁ c₂ : Option Nat) (st : ConnState) :
    fetch_query env q c₁ st = fetch_query env q c₂ st := rfl

/-- C2: an execution error that is not of the connection-lost kind performs
no recovery: the error propagates, the trace shows a single execution and no
close attempt, and the cached handle is left in place. -/
theorem fetch_query_error_propagates (env : Env) (q : Nat) (c : Option Nat)
    (st : ConnState) (h : Nat) (st₁ : ConnState) (ev₁ : List Event)
    (hgvc : get_valid_connection env st = (GVC.ok h, st₁, ev₁))
    (hfail : env.exec h q = ExecResult.err QErr.other) :
    fetch_query env q c st =
      (FetchResult.err QErr.other, st₁,
        ev₁ ++ [Event.execQuery h q (ExecResult.err QErr.other)]) ∧
    st₁.conn_cache = some h := by
  refine ⟨?_, (gvc_ok_shape env st h st₁ ev₁ hgvc).1⟩
  simp only [fetch_query, hgvc, hfail]

/-- Environment in which every query fails with a non-connection error. -/
def envOther : Env :=
  { dbExists := true, live := fun _ => true, closeOk := fun _ => true,
    exec := fun _ _ => ExecResult.err QErr.other }

/-- Witness for C2: the non-connection error propagates with no retry and the
cache keeps handle 0. -/
theorem fetch_query_error_propagates_witness :
    get_valid_connection envOther stEmpty =
      (GVC.ok 0, ⟨some 0, 1⟩, [Event.openConn 0]) ∧
    envOther.exec 0 5 = ExecResult.err QErr.other ∧
    (fetch_query envOther 5 none stEmpty =
       (FetchResult.err QErr.other, ⟨some 0, 1⟩,
        [Event.openConn 0] ++ [Event.execQuery 0 5 (ExecResult.err QErr.other)]) ∧
     (⟨some 0, 1⟩ : ConnState).conn_cache = some 0) :=
  ⟨rfl, rfl,
   fetch_query_error_propagates envOther 5 none stEmpty 0 ⟨some 0, 1⟩
     [Event.openConn 0] rfl rfl⟩

/-- C1: when query execution on the obtained handle raises a connection-lost
error, `fetch_query` invalidates the cached handle exactly once (one close
attempt on it, best-effort) and retries exactly once on a freshly opened
handle (a handle distinct from the failed one); the outcome of that single
retry, success or error, is returned to the caller, so a second failure
propagates. The trace contains exactly two executions and exactly one close
attempt on the failed handle. -/
theorem fetch_query_retry_once (env : Env) (q : Nat) (c : Option Nat)
    (st : ConnState) (h : Nat) (st₁ : ConnState) (ev₁ : List Event)
    (hwf : ∀ x, st.conn_cache = some x → x < st.nextId)
    (hgvc : get_valid_connection env st = (GVC.ok h, st₁, ev₁))
    (hfail : env.exec h q = ExecResult.err QErr.connLost)
    (hdb : env.dbExists = true) :
    fetch_query env q c st =
      ((match env.exec st₁.nextId q with
        | ExecResult.ok t => FetchResult.ok t
        | ExecResult.err e => FetchResult.err e),
       ⟨some st₁.nextId, st₁.nextId + 1⟩,
       ev₁ ++
         [Event.execQuery h q (ExecResult.err QErr.connLost),
          Event.closeAttempt h (env.closeOk h),
          Event.openConn st₁.nextId,
          Event.execQuery st₁.nextId q (env.exec st₁.nextId q)]) ∧
    h ≠ st₁.nextId ∧
    (fetch_query env q c st).2.2.countP isExecEvent = 2 ∧
    (fetch_query env q c st).2.2.countP (isCloseOf h) = 1 := by
  obtain ⟨hcache, hshape⟩ := gvc_ok_shape env st h st₁ ev₁ hgvc
  have hmain : fetch_query env q c st =
      ((match env.exec st₁.nextId q with
        | ExecResult.ok t => FetchResult.ok t
        | ExecResult.err e => FetchResult.err e),
       ⟨some st₁.nextId, st₁.nextId + 1⟩,
       ev₁ ++
         [Event.execQuery h q (ExecResult.err QErr.connLost),
          Event.closeAttempt h (env.closeOk h),
          Event.openConn st₁.nextId,
          Event.execQuery st₁.nextId q (env.exec st₁.nextId q)]) := by
    simp only [fetch_query, hgvc, hfail, hcache]
    simp only [get_valid_connection, open_new_connection, hdb, if_true]
    cases henv : env.exec st₁.nextId q <;> simp [henv]
  have hne : h ≠ st₁.nextId := by
    rcases hshape with ⟨hst, hcc, -⟩ | ⟨hh, hst, -, -⟩
    · have := hwf h hcc
      rw [hst]
      omega
    · rw [hh, hst]
      show st.nextId ≠ st.nextId + 1
      omega
  have hev₁exec : ev₁.countP isExecEvent = 0 := by
    rcases hshape with ⟨-, -, hev⟩ | ⟨-, -, -, hev | ⟨h₀, -, -, hev⟩⟩ <;>
      simp [hev, List.countP_cons, isExecEvent]
  have hev₁close : ev₁.countP (isCloseOf h) = 0 := by
    rcases hshape with ⟨-, -, hev⟩ | ⟨hh, -, -, hev | ⟨h₀, hcc, -, hev⟩⟩
    · simp [hev, List.countP_cons, isCloseOf]
    · simp [hev, List.countP_cons, isCloseOf]
    · have hlt : h₀ < st.nextId := hwf h₀ hcc
      have hne₀ : (h₀ == h) = false := by
        refine beq_eq_false_iff_ne.mpr ?_
        omega
      simp [hev, List.countP_cons, isCloseOf, hne₀]
  refine ⟨hmain, hne, ?_, ?_⟩
  · rw [hmain]
    simp [List.countP_append, List.countP_cons, isExecEvent, hev₁exec]
  · rw [hmain]
    simp [List.countP_append, List.countP_cons, isCloseOf, hev₁close]

/-- Environment for the C1 witness: handle 0 loses the connection on
execution; the fresh handle 1 answers the query. -/
def envRetry : Env :=
  { dbExists := true, live := fun _ => true, closeOk := fun _ => true,
    exec := fun h _ => if h = 0 then ExecResult.err QErr.connLost
      else ExecResult.ok 7 }

/-- Witness for C1: the first execution on handle 0 fails as connection-lost,
handle 0 is closed once, handle 1 is opened and the retry succeeds. -/
theorem fetch_query_retry_once_witness :
    get_valid_connection envRetry stEmpty =
      (GVC.ok 0, ⟨some 0, 1⟩, [Event.openConn 0]) ∧
    envRetry.exec 0 5 = ExecResult.err QErr.connLost ∧
    envRetry.dbExists = true ∧
    (fetch_query envRetry 5 none stEmpty =
       (FetchResult.ok 7, ⟨some 1, 2⟩,
        [Event.openConn 0] ++
          [Event.execQuery 0 5 (ExecResult.err QErr.connLost),
           Event.closeAttempt 0 true,
           Event.openConn 1,
           Event.execQuery 1 5 (ExecResult.ok 7)]) ∧
     (0 : Nat) ≠ 1 ∧
     (fetch_query envRetry 5 none stEmpty).2.2.countP isExecEvent = 2 ∧
     (fetch_query envRetry 5 none stEmpty).2.2.countP (isCloseOf 0) = 1) :=
  ⟨rfl, rfl, rfl,
   fetch_query_retry_once envRetry 5 none stEmpty 0 ⟨some 0, 1⟩
     [Event.openConn 0] (fun x hx => nomatch hx) rfl rfl rfl⟩
